import Mathlib

/-!
Shallow embedding of the Digital Output (breaker) control subsystem of the
EnergyMonitoringSystem repository, together with proofs of the specified
properties.

Embedded modules:
* `backend/utils/pac3220_do.py` — register command encoder (`encode_do_value`).
* `backend/utils/modbus_client.py` — `ModbusClient.decode_float` (IEEE-754
  32-bit decode with byte/word-order permutation search, modelled exactly
  over `ℚ`).
* `backend/do_worker.py` — notes parsing (`_parse_notes_for_reg`), the
  per-command execution engine (`_execute_command`), duplicate suppression
  (`_should_enqueue`), enqueue (`_enqueue_do`) and the auto-enforcement loop
  (`_enforce_auto_limit_restore`).

Conventions of the embedding:
* Python `None`-able values are `Option`; Python truthiness-based defaulting
  (`x or d`) is `pyOrInt` / `pyOrStr` / `pyOrRat` (`None`, `0`, `""` are
  falsy).
* Database queries and stored procedures are oracles passed in through a
  `World` / `EnforceWorld` record; `DbResult` distinguishes a returned value
  from a raised exception.
* Device (Modbus) behaviour is an oracle `Device`; the device operations the
  engine actually performs are collected in an event trace (`Event`), which
  also records the fixed inter-attempt sleeps.
* Python strings are Lean `String`s; all character-level processing is done
  on `List Char` with structural recursion so that every definition reduces
  in the kernel.  ASCII semantics of `str.strip`, `str.lower`, `int(...)`
  are modelled (the repository only ever feeds ASCII through these paths).
-/

namespace EMS

/-- Result of a Python database call: either the returned value or a raised
exception (the worker wraps each call in `try/except`). -/
inductive DbResult (α : Type) where
  | ok (val : α)
  | err
deriving DecidableEq

/-- Python `int(x or d)` for an optional integer column: `None` and `0` are
falsy and give the default. -/
def pyOrInt : Option Int → Int → Int
  | none, d => d
  | some v, d => if v = 0 then d else v

/-- Python `str(x or d)` for an optional string: `None` and `""` are falsy. -/
def pyOrStr : Option String → String → String
  | none, d => d
  | some s, d => if s = "" then d else s

/-- Python `float(x or d)` for an optional numeric column, modelled over `ℚ`:
`None` and `0` are falsy. -/
def pyOrRat : Option ℚ → ℚ → ℚ
  | none, d => d
  | some v, d => if v = 0 then d else v

/-! ### backend/utils/pac3220_do.py -/

/-- `encode_do_value(output_id, action)`:
`((int(output_id) & 0xFF) << 8) | (int(action) & 0xFF)`.
Python `& 0xFF` on an `int` is `emod 256`; the two bytes are disjoint, so the
`|` of the shifted high byte and the low byte is a sum. -/
def encode_do_value (output_id action : Int) : Int :=
  (output_id.emod 256) * 256 + action.emod 256

/-! ### Character-level models of the Python string operations used by
`_parse_notes_for_reg` (all structural, kernel-reducible). -/

/-- Split a character list on `;` (Python `str.split(";")`). -/
def splitSemiAux : List Char → List Char → List (List Char)
  | [], acc => [acc.reverse]
  | c :: rest, acc =>
    if c = ';' then acc.reverse :: splitSemiAux rest []
    else splitSemiAux rest (c :: acc)

/-- Python `notes.split(";")` on the underlying characters. -/
def splitSemi (cs : List Char) : List (List Char) := splitSemiAux cs []

/-- Python `str.strip()` (ASCII whitespace). -/
def pyStrip (cs : List Char) : List Char :=
  ((cs.dropWhile Char.isWhitespace).reverse.dropWhile Char.isWhitespace).reverse

/-- Python `p.lower().startswith("reg=")`. -/
def startsWithRegEq : List Char → Bool
  | c0 :: c1 :: c2 :: c3 :: _ =>
    c0.toLower = 'r' && c1.toLower = 'e' && c2.toLower = 'g' && c3 = '='
  | _ => false

/-- Python `p.split("=", 1)[1]`: everything after the first `=`.  (Only used
under the `startswith("reg=")` guard, so a `=` is always present.) -/
def afterFirstEq : List Char → List Char
  | [] => []
  | c :: rest => if c = '=' then rest else afterFirstEq rest

/-- Digit-group validity for CPython `int(str)` after the first digit:
digits, with single underscores allowed only between digits. -/
def pyDigitsRest : List Char → Bool
  | [] => true
  | c :: rest =>
    if c = '_' then
      match rest with
      | [] => false
      | c2 :: rest2 => c2.isDigit && pyDigitsRest rest2
    else c.isDigit && pyDigitsRest rest

/-- A valid unsigned CPython integer literal body: at least one digit,
underscores only between digits. -/
def pyDigitsValid : List Char → Bool
  | [] => false
  | c :: rest => c.isDigit && pyDigitsRest rest

/-- Numeric value of the digit characters (underscores removed by the
caller). -/
def digitsVal (cs : List Char) : Nat :=
  cs.foldl (fun a c => a * 10 + (c.toNat - 48)) 0

/-- CPython `int(raw)` on an ASCII string: strip whitespace, optional single
sign, digits with single underscores between digits; `none` models the
`ValueError` path. -/
def pyIntChars (cs : List Char) : Option Int :=
  match pyStrip cs with
  | '+' :: rest =>
    if pyDigitsValid rest then some (digitsVal (rest.filter Char.isDigit)) else none
  | '-' :: rest =>
    if pyDigitsValid rest then some (-(digitsVal (rest.filter Char.isDigit) : Int)) else none
  | t => if pyDigitsValid t then some (digitsVal (t.filter Char.isDigit)) else none

/-- The loop body of `_parse_notes_for_reg`: scan the `;`-separated parts;
skip empty (after strip); on the first part whose lowercase form starts with
`reg=`, return the stripped text after the first `=`. -/
def findRegRaw : List (List Char) → Option (List Char)
  | [] => none
  | part :: rest =>
    let p := pyStrip part
    if p.isEmpty then findRegRaw rest
    else if startsWithRegEq p then some (pyStrip (afterFirstEq p))
    else findRegRaw rest

/-- `_parse_notes_for_reg(notes)`: `None` for empty notes; otherwise the
integer value of the first `reg=` token, with any `ValueError` from `int`
swallowed into `None` (the `try` wraps the whole loop). -/
def parse_notes_for_reg (notes : String) : Option Int :=
  if notes = "" then none
  else
    match findRegRaw (splitSemi notes.toList) with
    | none => none
    | some raw => pyIntChars raw

/-! ### backend/utils/modbus_client.py — `ModbusClient.decode_float`

The decoder hands the two 16-bit registers to pymodbus
`BinaryPayloadDecoder.fromRegisters(registers, byteorder, wordorder)` and
calls `decode_32bit_float()`.  pymodbus packs each register as two bytes
using `byteorder`, reverses the 16-bit word order when `wordorder` is
little, and finally unpacks the four bytes as an IEEE-754 binary32 value
using `byteorder` again.  IEEE-754 decoding is exact over `ℚ` (NaN and the
infinities become `none`, matching the `isnan`/`isinf` rejection). -/

/-- Byte / word order selector (pymodbus `Endian`). -/
inductive ByteOrd where
  | big
  | little
deriving DecidableEq

/-- `struct.pack(order + "H", r)`: a 16-bit register as two bytes. -/
def pack16 : ByteOrd → Nat → List Nat
  | .big, r => [r / 256 % 256, r % 256]
  | .little, r => [r % 256, r / 256 % 256]

/-- Read a byte list as a big-endian natural number. -/
def beBytesToNat (bs : List Nat) : Nat :=
  bs.foldl (fun a b => a * 256 + b) 0

/-- The four payload bytes of a register pair, normalised to big-endian bit
order: pack both registers with `b`, reverse the word order when `w` is
little, and reverse the bytes when the final unpack order `b` is little. -/
def float32BytesBE (b w : ByteOrd) (r0 r1 : Nat) : List Nat :=
  let payload :=
    match w with
    | .big => pack16 b r0 ++ pack16 b r1
    | .little => pack16 b r1 ++ pack16 b r0
  match b with
  | .big => payload
  | .little => payload.reverse

/-- Exact value of an IEEE-754 binary32 bit pattern; `none` for NaN and the
infinities (exponent field all ones). -/
def float32OfBits (bits : Nat) : Option ℚ :=
  let sign : ℕ := bits / 2 ^ 31 % 2
  let e : ℕ := bits / 2 ^ 23 % 2 ^ 8
  let f : ℕ := bits % 2 ^ 23
  if e = 255 then none
  else
    let mag : ℚ :=
      if e = 0 then (f : ℚ) / 2 ^ 149
      else ((2 ^ 23 + f : ℚ) * 2 ^ e) / 2 ^ 150
    some (if sign = 1 then -mag else mag)

/-- One `BinaryPayloadDecoder.fromRegisters(...).decode_32bit_float()` call
for a given byte order `b` and word order `w`. -/
def decodeOne (b w : ByteOrd) (r0 r1 : Nat) : Option ℚ :=
  float32OfBits (beBytesToNat (float32BytesBE b w r0 r1))

/-- The fixed ordering priority list tried by `decode_float`
(`(Endian.Little, Endian.Big)` first — "common Siemens"). -/
def decodeOrders : List (ByteOrd × ByteOrd) :=
  [(.little, .big), (.big, .big), (.little, .little), (.big, .little)]

/-- `ModbusClient.decode_float(registers)`: reject a wrong-length input and
the all-ones sentinel outright, then return the first ordering's decode that
is finite and has `abs(val) <= 1e9`. -/
def decode_float (registers : List Nat) : Option ℚ :=
  if registers.length ≠ 2 then none
  else if registers = [0xFFFF, 0xFFFF] then none
  else
    match registers with
    | r0 :: r1 :: _ =>
      decodeOrders.findSome? fun p =>
        match decodeOne p.1 p.2 r0 r1 with
        | none => none
        | some v => if |v| ≤ 10 ^ 9 then some v else none
    | _ => none

/-! ### backend/do_worker.py — configuration constants -/

def DEFAULT_WRITE_REGISTER : Int := 60008
def DEFAULT_READ_REGISTER : Nat := 400
def MODBUS_PORT : Nat := 502
def DEFAULT_MAX_RETRIES : Int := 3
def RETRY_DELAY_SECONDS : Nat := 1
def DUPLICATE_WINDOW_SECONDS : Nat := 5

/-! ### backend/do_worker.py — `_execute_command`

The command row, the environment, the database answers and the device
behaviour are an explicit `World`; the engine is the pure function
`executeCommand`, which returns the final command result together with the
trace of device operations (and sleeps) it performed. -/

/-- One row of `app.DigitalOutputCommands` joined with `app.Analyzers`, as
the dict handed to `_execute_command`.  Optional fields model both SQL
`NULL` and the Python `or`-defaulting applied to them. -/
structure CmdRow where
  commandId : Int
  analyzerId : Option Int
  ipAddress : Option String
  modbusId : Option Int
  coilAddress : Option Int
  notes : Option String
  command : Option String
  maxRetries : Option Int
deriving DecidableEq

/-- Outcome of one `write_do_0` call (primary FC06 write): returned `True`,
returned a falsy value (e.g. connect failure or protocol error), or raised
an exception with message `msg`. -/
inductive PrimaryRes where
  | ok
  | fail
  | exc (msg : String)
deriving DecidableEq

/-- Outcome of the FC05 fallback block: `connect()` falsy (or raising before
the write), `write_coil` succeeded, `write_coil` returned an error response,
or `write_coil` raised. -/
inductive FallbackRes where
  | noConnect
  | writeOk
  | writeFail
  | writeExc
deriving DecidableEq

/-- Outcome of the `read_do_0` read-back: a returned `Optional[int]`, or an
exception (caught by the surrounding handler, which then leaves the
read-back state `None`). -/
inductive ReadDo0Res where
  | val (v : Option Int)
  | exc
deriving DecidableEq

/-- Device behaviour oracle for one command execution. `primary n` is the
result of the n-th (1-based) FC06 attempt; `readCoil` is the parsed bit of
the FC01 read-back fallback (`none` folds together connect failure, error
response, missing bits and exceptions, all of which leave the state
unknown). -/
structure Device where
  primary : Nat → PrimaryRes
  fallback : FallbackRes
  readDo0 : ReadDo0Res
  readCoil : Option Bool

/-- The world one `_execute_command` call runs in.  `toggleQuery` and
`idemQuery` are the two `SELECT State FROM app.DigitalOutputStatus` calls
(TOGGLE resolution and idempotence check): `ok none` = no row, `ok (some
st)` = a row whose `State` column is `st` (`none` = SQL NULL). -/
structure World where
  cmd : CmdRow
  unitTest : Bool
  toggleQuery : DbResult (Option (Option Int))
  idemQuery : DbResult (Option (Option Int))
  device : Device

/-- A device operation performed during execution. -/
inductive DeviceOp where
  | primaryWrite (attempt : Nat) (reg : Int) (value : Int)
  | fallbackCoil (coil : Int) (value : Bool)
  | readDiscrete (reg : Nat)
  | readCoil (coil : Int)
deriving DecidableEq

/-- Trace events: device operations and the fixed inter-attempt sleeps. -/
inductive Event where
  | dev (op : DeviceOp)
  | sleep (seconds : Nat)
deriving DecidableEq

/-- Final command result written back through
`app.sp_UpdateDigitalOutputResult`. -/
inductive ExecResult where
  | success
  | failed (reason : String)
deriving DecidableEq

/-- Observable outcome of `_execute_command`: the persisted result, the
device/sleep trace, the resolved write register, the resolved desired state
(`none` when execution failed before resolving it), the final value of the
`success` flag of the write phase (`none` when the write phase was never
reached), and the final `read_back_state`. -/
structure ExecOutcome where
  result : ExecResult
  trace : List Event
  writeRegisterAddr : Int
  desiredInt : Option Int
  writeOk : Option Bool
  readBackState : Option Int
deriving DecidableEq

/-- `host = cmd.get("IPAddress")`, with `if not host` treating `None` and
`""` alike — the resolved host string, `""` meaning missing. -/
def hostOf (w : World) : String := pyOrStr w.cmd.ipAddress ""

/-- `notes = str(cmd.get("Notes") or "")`. -/
def notesOf (w : World) : String := pyOrStr w.cmd.notes ""

/-- `write_register_address = int(reg_override if reg_override is not None
else DEFAULT_WRITE_REGISTER)`. -/
def writeRegOf (w : World) : Int :=
  (parse_notes_for_reg (notesOf w)).getD DEFAULT_WRITE_REGISTER

/-- ASCII `str.upper()`. -/
def pyUpper (s : String) : String := ⟨s.toList.map Char.toUpper⟩

/-- `command = str(cmd.get("Command") or "").upper()`. -/
def commandOf (w : World) : String := pyUpper (pyOrStr w.cmd.command "")

/-- `max_retries = int(cmd.get("MaxRetries") or DEFAULT_MAX_RETRIES)`. -/
def maxRetriesOf (w : World) : Int := pyOrInt w.cmd.maxRetries DEFAULT_MAX_RETRIES

/-- `coil_address = int(cmd.get("CoilAddress") or 0)`. -/
def coilOf (w : World) : Int := pyOrInt w.cmd.coilAddress 0

/-- The test-mode shortcut guard:
`os.getenv("UNIT_TEST","0") == "1" or host in ("127.0.0.1", "localhost")`. -/
def testModeOf (w : World) : Bool :=
  w.unitTest || hostOf w = "127.0.0.1" || hostOf w = "localhost"

/-- `desired_int = 1 if target_state_bool else 0`. -/
def desiredIntOf (target : Bool) : Int := if target then 1 else 0

/-- Resolution of `target_state_bool` from the command string: ON/OFF map
directly; TOGGLE negates the cached state (`int(State or 0)`), defaulting to
`True` when there is no row or the query raises; anything else is the
unknown-command failure (`none`). -/
def resolveDesired (command : String) (toggleQ : DbResult (Option (Option Int))) :
    Option Bool :=
  if command = "ON" then some true
  else if command = "OFF" then some false
  else if command = "TOGGLE" then
    match toggleQ with
    | .err => some true
    | .ok none => some true
    | .ok (some st) => some (pyOrInt st 0 == 0)
  else none

/-- The idempotence check: a cached row whose `int(State or 0)` equals the
desired state skips execution; a missing row or a raised query does not. -/
def idemSkip (q : DbResult (Option (Option Int))) (desired : Int) : Bool :=
  match q with
  | .err => false
  | .ok none => false
  | .ok (some st) => pyOrInt st 0 == desired

/-- State of the write phase: the `success` flag, `last_error`, and the
trace produced so far. -/
structure WriteOut where
  succ : Bool
  lastError : Option String
  trace : List Event
deriving DecidableEq

/-- The retry loop `for attempt in range(1, max_retries + 1)`, recursing on
the number of remaining iterations (`rem`) with the current 1-based attempt
number.  In test mode the first iteration sets `success` and breaks before
any device call.  A falsy `write_do_0` sets `last_error =
"attempt_failed:{attempt}"`, an exception sets
`"attempt_error:{attempt}:{e}"`; after each failed non-final attempt the
worker sleeps `RETRY_DELAY_SECONDS`. -/
def attemptGo (dev : Device) (testMode : Bool) (reg value : Int) :
    Nat → Nat → Option String → WriteOut
  | 0, _, le => ⟨false, le, []⟩
  | rem + 1, attempt, le =>
    if testMode then ⟨true, le, []⟩
    else
      match dev.primary attempt with
      | .ok => ⟨true, le, [.dev (.primaryWrite attempt reg value)]⟩
      | .fail =>
        let le2 := some ("attempt_failed:" ++ toString attempt)
        if rem = 0 then ⟨false, le2, [.dev (.primaryWrite attempt reg value)]⟩
        else
          let o := attemptGo dev testMode reg value rem (attempt + 1) le2
          ⟨o.succ, o.lastError,
            .dev (.primaryWrite attempt reg value) :: .sleep RETRY_DELAY_SECONDS :: o.trace⟩
      | .exc m =>
        let le2 := some ("attempt_error:" ++ toString attempt ++ ":" ++ m)
        if rem = 0 then ⟨false, le2, [.dev (.primaryWrite attempt reg value)]⟩
        else
          let o := attemptGo dev testMode reg value rem (attempt + 1) le2
          ⟨o.succ, o.lastError,
            .dev (.primaryWrite attempt reg value) :: .sleep RETRY_DELAY_SECONDS :: o.trace⟩

/-- The whole retry loop: `range(1, max_retries + 1)` runs
`max(max_retries, 0)` iterations starting at attempt 1 with
`last_error = None`. -/
def attemptLoop (dev : Device) (testMode : Bool) (reg value : Int) (maxRetries : Int) :
    WriteOut :=
  attemptGo dev testMode reg value maxRetries.toNat 1 none

/-- The FC05 fallback block, run only when the loop left `success` false: a
successful coil write sets `success` and clears `last_error`; a failed or
raising write leaves both; a failed connect performs no write. -/
def fallbackStep (dev : Device) (coil : Int) (target : Bool) (o : WriteOut) : WriteOut :=
  if o.succ then o
  else
    match dev.fallback with
    | .noConnect => ⟨false, o.lastError, o.trace⟩
    | .writeOk => ⟨true, none, o.trace ++ [.dev (.fallbackCoil coil target)]⟩
    | .writeFail => ⟨false, o.lastError, o.trace ++ [.dev (.fallbackCoil coil target)]⟩
    | .writeExc => ⟨false, o.lastError, o.trace ++ [.dev (.fallbackCoil coil target)]⟩

/-- Result of the read-back phase: the parsed `read_back_state` and the
trace of read operations. -/
structure ReadOut where
  state : Option Int
  trace : List Event
deriving DecidableEq

/-- The read-back phase (only entered when `success`): in test mode the
state is fabricated equal to the desired state with no device call;
otherwise `read_do_0` is tried first and, when it yields `None`, the FC01
coil read; any exception leaves the state `None`. -/
def readbackStep (dev : Device) (testMode : Bool) (desired : Int) (coil : Int) : ReadOut :=
  if testMode then ⟨some desired, []⟩
  else
    match dev.readDo0 with
    | .exc => ⟨none, [.dev (.readDiscrete DEFAULT_READ_REGISTER)]⟩
    | .val (some v) => ⟨some v, [.dev (.readDiscrete DEFAULT_READ_REGISTER)]⟩
    | .val none =>
      match dev.readCoil with
      | some b =>
        ⟨some (if b then 1 else 0),
          [.dev (.readDiscrete DEFAULT_READ_REGISTER), .dev (.readCoil coil)]⟩
      | none => ⟨none, [.dev (.readDiscrete DEFAULT_READ_REGISTER), .dev (.readCoil coil)]⟩

/-- The retry loop of `executeCommand` for a resolved target state. -/
def loopOf (w : World) (target : Bool) : WriteOut :=
  attemptLoop w.device (testModeOf w) (writeRegOf w)
    (encode_do_value 0 (desiredIntOf target)) (maxRetriesOf w)

/-- Write phase including the FC05 fallback. -/
def afterWriteOf (w : World) (target : Bool) : WriteOut :=
  fallbackStep w.device (coilOf w) target (loopOf w target)

/-- Write attempts, fallback, read-back and finalisation (lines 236–324 of
`do_worker.py`), for a resolved target state. -/
def runPhase (w : World) (target : Bool) : ExecOutcome :=
  if (afterWriteOf w target).succ then
    match (readbackStep w.device (testModeOf w) (desiredIntOf target) (coilOf w)).state with
    | some s =>
      if s = desiredIntOf target then
        ⟨.success,
          (afterWriteOf w target).trace ++
            (readbackStep w.device (testModeOf w) (desiredIntOf target) (coilOf w)).trace,
          writeRegOf w, some (desiredIntOf target), some true, some s⟩
      else
        ⟨.failed "readback_mismatch",
          (afterWriteOf w target).trace ++
            (readbackStep w.device (testModeOf w) (desiredIntOf target) (coilOf w)).trace,
          writeRegOf w, some (desiredIntOf target), some true, some s⟩
    | none =>
      ⟨.failed "readback_missing",
        (afterWriteOf w target).trace ++
          (readbackStep w.device (testModeOf w) (desiredIntOf target) (coilOf w)).trace,
        writeRegOf w, some (desiredIntOf target), some true, none⟩
  else
    ⟨.failed ((afterWriteOf w target).lastError.getD "unknown_error"),
      (afterWriteOf w target).trace, writeRegOf w, some (desiredIntOf target),
      some false, none⟩

/-- `_execute_command(cmd)`: missing host and unknown command fail fast, the
idempotence check short-circuits to SUCCESS with no device contact, and
otherwise the write/fallback/read-back machinery runs. -/
def executeCommand (w : World) : ExecOutcome :=
  if hostOf w = "" then
    ⟨.failed "missing_analyzer_ip", [], writeRegOf w, none, none, none⟩
  else
    match resolveDesired (commandOf w) w.toggleQuery with
    | none =>
      ⟨.failed ("unknown_command:" ++ commandOf w), [], writeRegOf w, none, none, none⟩
    | some target =>
      if idemSkip w.idemQuery (desiredIntOf target) then
        ⟨.success, [], writeRegOf w, some (desiredIntOf target), none, none⟩
      else runPhase w target

/-! ### backend/do_worker.py — `_should_enqueue`, `_enqueue_do`,
`_enforce_auto_limit_restore`

Account usage arithmetic is over `ℚ` (an exact model of the Python float
computation; every concrete value used in the proofs is exactly
representable in binary floating point, so the model and Python agree on
them). -/

/-- One row of the `app.Users` query: `UserID, AllocatedKWh, UsedKWh`. -/
structure UserRow where
  userId : Int
  allocatedKWh : Option ℚ
  usedKWh : Option ℚ

/-- One row of the per-user `app.Analyzers` query; `coil` and `enabled` are
already `ISNULL(...)`-defaulted by the SQL. -/
structure AnalyzerRow where
  analyzerId : Int
  coil : Int
  enabled : Int

/-- An insert performed through `app.sp_ControlDigitalOutput`. -/
structure Enq where
  analyzerId : Int
  coil : Int
  command : String
  source : String
deriving DecidableEq

/-- The database world of one enforcement cycle.  `dupPending aid coil cmd
window` answers the `_should_enqueue` duplicate query (`ok true` = a recent
PENDING duplicate exists inside `window` seconds); `spOk` tells whether the
enqueue stored procedure succeeds. -/
structure EnforceWorld where
  users : DbResult (List UserRow)
  analyzersOf : Int → DbResult (List AnalyzerRow)
  dupPending : Int → Int → String → Nat → DbResult Bool
  spOk : Int → Int → String → Bool

/-- `_should_enqueue`: `not rows` for a successful duplicate query; a raised
query fails open and allows the enqueue. -/
def should_enqueue (w : EnforceWorld) (analyzerId coil : Int) (command : String) : Bool :=
  match w.dupPending analyzerId coil command DUPLICATE_WINDOW_SECONDS with
  | .ok found => !found
  | .err => true

/-- `_enqueue_do`: suppressed duplicates insert nothing; otherwise the
stored procedure inserts one command (an exception inserts nothing and
returns `False`).  The result is the list of performed inserts. -/
def enqueue_do (w : EnforceWorld) (analyzerId coil : Int) (command source : String) :
    List Enq :=
  if should_enqueue w analyzerId coil command then
    if w.spOk analyzerId coil command then [⟨analyzerId, coil, command, source⟩] else []
  else []

/-- `pct = (used / alloc * 100.0) if alloc > 0 else (100.0 if used > 0 else
0.0)`. -/
def usagePct (alloc used : ℚ) : ℚ :=
  if alloc > 0 then used / alloc * 100 else if used > 0 then 100 else 0

/-- Per-analyzer enforcement: skip breaker-disabled analyzers and
out-of-range coils; at or above 100% enqueue OFF (`auto_limit`), below
enqueue ON (`auto_restore`).  (The notification e-mail sent on the OFF path
performs no enqueue and is not modelled.) -/
def enforceAnalyzer (w : EnforceWorld) (pct : ℚ) (a : AnalyzerRow) : List Enq :=
  if a.enabled ≠ 1 then []
  else if a.coil < 0 ∨ a.coil > 9999 then []
  else if pct ≥ 100 then enqueue_do w a.analyzerId a.coil "OFF" "auto_limit"
  else enqueue_do w a.analyzerId a.coil "ON" "auto_restore"

/-- Per-user enforcement: compute the usage percentage and process every
analyzer row; a raised analyzer query skips the user (`continue`). -/
def enforceUser (w : EnforceWorld) (u : UserRow) : List Enq :=
  let alloc := pyOrRat u.allocatedKWh 0
  let used := pyOrRat u.usedKWh 0
  let pct := usagePct alloc used
  match w.analyzersOf u.userId with
  | .err => []
  | .ok rows => (rows.map (enforceAnalyzer w pct)).flatten

/-- `_enforce_auto_limit_restore()`: one cycle over all active users; the
returned list is every insert performed, in order.  A raised users query
makes the whole cycle a no-op. -/
def enforce (w : EnforceWorld) : List Enq :=
  match w.users with
  | .err => []
  | .ok us => (us.map (enforceUser w)).flatten

/-! ### Trace observations -/

/-- Is this event a primary FC06 write attempt? -/
def isPrimaryEv : Event → Bool
  | .dev (.primaryWrite _ _ _) => true
  | _ => false

/-- Is this event the FC05 fallback coil write? -/
def isFallbackEv : Event → Bool
  | .dev (.fallbackCoil _ _) => true
  | _ => false

/-- Is this event a sleep? -/
def isSleepEv : Event → Bool
  | .sleep _ => true
  | _ => false

/-- Number of primary write attempts in a trace. -/
def primCount (tr : List Event) : Nat := (tr.filter isPrimaryEv).length

/-- Number of fallback coil writes in a trace. -/
def coilCount (tr : List Event) : Nat := (tr.filter isFallbackEv).length

/-- Number of sleeps in a trace. -/
def sleepCount (tr : List Event) : Nat := (tr.filter isSleepEv).length

/-- The error string captured by a failed attempt `i`. -/
def primaryErrString (dev : Device) (i : Nat) : String :=
  match dev.primary i with
  | .ok => "unknown_error"
  | .fail => "attempt_failed:" ++ toString i
  | .exc m => "attempt_error:" ++ toString i ++ ":" ++ m

/-! ### Derived predicates used by the specification properties -/

/-- The shape of `last_error` after the retry loop: still unset, or one of
the two per-attempt error strings. -/
def ErrForm (o : Option String) : Prop :=
  o = none ∨ (∃ n : Nat, o = some ("attempt_failed:" ++ toString n)) ∨
    (∃ n : Nat, ∃ m : String, o = some ("attempt_error:" ++ toString n ++ ":" ++ m))

/-- Character-level string prefix test (kernel-reducible). -/
def leadsWith : List Char → List Char → Bool
  | [], _ => true
  | _ :: _, [] => false
  | a :: as, b :: bs => a == b && leadsWith as bs

/-- `strLeadsWith pre s`: does `s` start with `pre`? -/
def strLeadsWith (pre s : String) : Bool := leadsWith pre.toList s.toList

/-- Membership in the reason-code set named by the specification
(`connect_failed`, `attempt_failed`, `readback_mismatch`, `readback_missing`,
`unknown_command`, `missing_analyzer_ip`), reading the parameterised codes
as prefixes. -/
def specReasonListed (r : String) : Bool :=
  r == "connect_failed" || strLeadsWith "attempt_failed" r || r == "readback_mismatch" ||
    r == "readback_missing" || strLeadsWith "unknown_command" r || r == "missing_analyzer_ip"

/-- The reason strings `_execute_command` actually produces on its FAILED
paths. -/
def ReasonForm (r : String) : Prop :=
  r = "missing_analyzer_ip" ∨ (∃ c, r = "unknown_command:" ++ c) ∨
    r = "readback_mismatch" ∨ r = "readback_missing" ∨ r = "unknown_error" ∨
    (∃ n : Nat, r = "attempt_failed:" ++ toString n) ∨
    (∃ n : Nat, ∃ m : String, r = "attempt_error:" ++ toString n ++ ":" ++ m)

/-! ### Concrete scenarios used by the witnesses and counterexamples -/

/-- A device whose primary write succeeds and whose read-back returns 1. -/
def okDevice : Device := ⟨fun _ => .ok, .noConnect, .val (some 1), none⟩

/-- ON command against a real host; the write succeeds but the read-back
returns 0 (mismatch with the desired 1). -/
def c1world : World :=
  ⟨⟨11, some 3, some "10.0.0.7", some 1, some 0, none, some "ON", none⟩, false,
    .ok none, .ok none, ⟨fun _ => .ok, .noConnect, .val (some 0), none⟩⟩

/-- ON command whose cached status row already holds state 1. -/
def c3world : World :=
  ⟨⟨12, some 3, some "10.0.0.5", some 1, some 0, none, some "ON", none⟩, false,
    .ok none, .ok (some (some 1)), okDevice⟩

/-- OFF command (default max-retries 3) against a device whose primary write
always returns falsy and whose fallback coil write also fails. -/
def c4world : World :=
  ⟨⟨13, some 3, some "10.0.0.8", some 1, some 2, none, some "OFF", none⟩, false,
    .ok none, .ok none, ⟨fun _ => .fail, .writeFail, .val (some 1), none⟩⟩

/-- ON command with `MaxRetries = 1` whose single write attempt raises an
exception `boom`; the fallback write fails too. -/
def c5cmd : CmdRow :=
  ⟨6, some 3, some "10.0.0.9", some 1, some 0, none, some "ON", some 1⟩

def c5dev : Device :=
  ⟨fun _ => .exc "boom", .writeFail, .val (some 1), none⟩

def c5world : World := ⟨c5cmd, false, .ok none, .ok none, c5dev⟩

/-- ON command for the localhost host with a (reachable through the API)
negative `MaxRetries`: the retry loop runs zero iterations, so the test-mode
shortcut is never taken and the FC05 fallback performs real device I/O. -/
def c8cmd : CmdRow :=
  ⟨5, some 3, some "127.0.0.1", some 1, some 0, some "source=auto_limit", some "ON", some (-1)⟩

def c8dev : Device := ⟨fun _ => .ok, .writeFail, .val (some 1), none⟩

def c8world : World := ⟨c8cmd, false, .ok none, .ok none, c8dev⟩

/-- ON command for localhost with the default max-retries; the device oracle
would fail every call, showing none is consulted. -/
def c8okworld : World :=
  ⟨⟨14, some 3, some "127.0.0.1", some 1, some 0, none, some "ON", none⟩, false,
    .ok none, .ok none, ⟨fun _ => .fail, .writeFail, .val none, none⟩⟩

/-- An enforcement world whose duplicate-suppression query always raises. -/
def c9world : EnforceWorld :=
  ⟨.ok [], fun _ => .ok [], fun _ _ _ _ => .err, fun _ _ _ => true⟩

/-- ON command for localhost whose notes carry the invalid token `reg=abc`. -/
def c10world : World :=
  ⟨⟨15, some 3, some "127.0.0.1", some 1, some 0, some "reg=abc", some "ON", none⟩, false,
    .ok none, .ok none, okDevice⟩

/-- One active account with one breaker-enabled analyzer; the
duplicate-pending answer is selected by the queried command and the enqueue
stored procedure always succeeds. -/
def oneUserWorld (uid aid coil : Int) (alloc used : ℚ) (dupOFF dupON : DbResult Bool) :
    EnforceWorld where
  users := .ok [⟨uid, some alloc, some used⟩]
  analyzersOf := fun _ => .ok [⟨aid, coil, 1⟩]
  dupPending := fun _ _ c _ => if c = "OFF" then dupOFF else dupON
  spOk := fun _ _ _ => true

/-! ### Helper lemmas about the write phase -/

lemma attemptGo_trace_mem (dev : Device) (reg value : Int) :
    ∀ rem att le, ∀ e ∈ (attemptGo dev false reg value rem att le).trace,
      (∃ a, e = .dev (.primaryWrite a reg value)) ∨ e = .sleep RETRY_DELAY_SECONDS := by
  intro rem
  induction rem with
  | zero => intro att le e he; simp [attemptGo] at he
  | succ r ih =>
    intro att le e he
    rw [attemptGo] at he
    simp only [Bool.false_eq_true, if_false] at he
    cases hp : dev.primary att with
    | ok => rw [hp] at he; simp at he; exact .inl ⟨att, he⟩
    | fail =>
      rw [hp] at he
      by_cases hr : r = 0
      · simp [hr] at he; exact .inl ⟨att, he⟩
      · simp only [hr, if_false] at he
        simp only [List.mem_cons] at he
        rcases he with h | h | h
        · exact .inl ⟨att, h⟩
        · exact .inr h
        · exact ih (att + 1) _ e h
    | exc m =>
      rw [hp] at he
      by_cases hr : r = 0
      · simp [hr] at he; exact .inl ⟨att, he⟩
      · simp only [hr, if_false] at he
        simp only [List.mem_cons] at he
        rcases he with h | h | h
        · exact .inl ⟨att, h⟩
        · exact .inr h
        · exact ih (att + 1) _ e h


lemma attemptGo_primCount (dev : Device) (reg value : Int) :
    ∀ rem att le, primCount (attemptGo dev false reg value rem att le).trace ≤ rem := by
  intro rem
  induction rem with
  | zero => intro att le; simp [attemptGo, primCount]
  | succ r ih =>
    intro att le
    rw [attemptGo]
    simp only [Bool.false_eq_true, if_false]
    cases hp : dev.primary att with
    | ok => simp [primCount, List.filter, isPrimaryEv]
    | fail =>
      by_cases hr : r = 0
      · simp [hr, primCount, List.filter, isPrimaryEv]
      · simp only [hr, if_false]
        simp only [primCount, List.filter, isPrimaryEv, List.length_cons]
        have := ih (att + 1) (some ("attempt_failed:" ++ toString att))
        simp only [primCount] at this
        omega
    | exc m =>
      by_cases hr : r = 0
      · simp [hr, primCount, List.filter, isPrimaryEv]
      · simp only [hr, if_false]
        simp only [primCount, List.filter, isPrimaryEv, List.length_cons]
        have := ih (att + 1) (some ("attempt_error:" ++ toString att ++ ":" ++ m))
        simp only [primCount] at this
        omega

lemma attemptGo_sleep_primCount (dev : Device) (reg value : Int) :
    ∀ rem att le, 0 < rem →
      sleepCount (attemptGo dev false reg value rem att le).trace + 1 =
        primCount (attemptGo dev false reg value rem att le).trace := by
  intro rem
  induction rem with
  | zero => omega
  | succ r ih =>
    intro att le _
    rw [attemptGo]
    simp only [Bool.false_eq_true, if_false]
    cases hp : dev.primary att with
    | ok => simp [primCount, sleepCount, List.filter, isPrimaryEv, isSleepEv]
    | fail =>
      by_cases hr : r = 0
      · simp [hr, primCount, sleepCount, List.filter, isPrimaryEv, isSleepEv]
      · simp only [hr, if_false]
        simp only [primCount, sleepCount, List.filter, isPrimaryEv, isSleepEv, List.length_cons]
        have := ih (att + 1) (some ("attempt_failed:" ++ toString att)) (by omega)
        simp only [primCount, sleepCount] at this
        omega
    | exc m =>
      by_cases hr : r = 0
      · simp [hr, primCount, sleepCount, List.filter, isPrimaryEv, isSleepEv]
      · simp only [hr, if_false]
        simp only [primCount, sleepCount, List.filter, isPrimaryEv, isSleepEv, List.length_cons]
        have := ih (att + 1) (some ("attempt_error:" ++ toString att ++ ":" ++ m)) (by omega)
        simp only [primCount, sleepCount] at this
        omega

lemma attemptGo_succ_false_iff (dev : Device) (reg value : Int) :
    ∀ rem att le,
      ((attemptGo dev false reg value rem att le).succ = false ↔
        ∀ i, att ≤ i → i < att + rem → dev.primary i ≠ .ok) := by
  intro rem
  induction rem with
  | zero =>
    intro att le
    constructor
    · intro _ i h1 h2; omega
    · intro _; rfl
  | succ r ih =>
    intro att le
    rw [attemptGo]
    simp only [Bool.false_eq_true, if_false]
    cases hp : dev.primary att with
    | ok =>
      constructor
      · intro h; simp at h
      · intro h; exact absurd hp (h att (Nat.le_refl att) (by omega))
    | fail =>
      by_cases hr : r = 0
      · subst hr
        simp only [if_pos rfl]
        constructor
        · intro _ i h1 h2
          have : i = att := by omega
          subst this; rw [hp]; intro hx; cases hx
        · intro _; rfl
      · simp only [hr, if_false]
        rw [ih (att + 1) (some ("attempt_failed:" ++ toString att))]
        constructor
        · intro h i h1 h2
          by_cases hi : i = att
          · subst hi; rw [hp]; intro hx; cases hx
          · exact h i (by omega) (by omega)
        · intro h i h1 h2; exact h i (by omega) (by omega)
    | exc m =>
      by_cases hr : r = 0
      · subst hr
        simp only [if_pos rfl]
        constructor
        · intro _ i h1 h2
          have : i = att := by omega
          subst this; rw [hp]; intro hx; cases hx
        · intro _; rfl
      · simp only [hr, if_false]
        rw [ih (att + 1) (some ("attempt_error:" ++ toString att ++ ":" ++ m))]
        constructor
        · intro h i h1 h2
          by_cases hi : i = att
          · subst hi; rw [hp]; intro hx; cases hx
          · exact h i (by omega) (by omega)
        · intro h i h1 h2; exact h i (by omega) (by omega)


lemma attemptGo_lastError_allFail (dev : Device) (reg value : Int) :
    ∀ rem att el, 0 < rem →
      (∀ i, att ≤ i → i < att + rem → dev.primary i ≠ .ok) →
      (attemptGo dev false reg value rem att el).lastError =
        some (primaryErrString dev (att + rem - 1)) := by
  intro rem
  induction rem with
  | zero => omega
  | succ r ih =>
    intro att el _ hall
    rw [attemptGo]
    simp only [Bool.false_eq_true, if_false]
    cases hp : dev.primary att with
    | ok => exact absurd hp (hall att (Nat.le_refl att) (by omega))
    | fail =>
      by_cases hr : r = 0
      · subst hr
        simp only [if_pos rfl]
        have : att + 1 - 1 = att := by omega
        rw [this]; simp [primaryErrString, hp]
      · simp only [hr, if_false]
        have hrec := ih (att + 1) (some ("attempt_failed:" ++ toString att)) (by omega)
          (fun i h1 h2 => hall i (by omega) (by omega))
        have hidx : att + 1 + r - 1 = att + (r + 1) - 1 := by omega
        rw [hidx] at hrec
        exact hrec
    | exc m =>
      by_cases hr : r = 0
      · subst hr
        simp only [if_pos rfl]
        have : att + 1 - 1 = att := by omega
        rw [this]; simp [primaryErrString, hp]
      · simp only [hr, if_false]
        have hrec := ih (att + 1) (some ("attempt_error:" ++ toString att ++ ":" ++ m)) (by omega)
          (fun i h1 h2 => hall i (by omega) (by omega))
        have hidx : att + 1 + r - 1 = att + (r + 1) - 1 := by omega
        rw [hidx] at hrec
        exact hrec


lemma attemptGo_lastError_ErrForm (dev : Device) (tm : Bool) (reg value : Int) :
    ∀ rem att el, ErrForm el → ErrForm (attemptGo dev tm reg value rem att el).lastError := by
  cases tm with
  | true =>
    intro rem att el h
    cases rem with
    | zero => exact h
    | succ r => rw [attemptGo]; simp only [if_pos rfl]; exact h
  | false =>
  intro rem
  induction rem with
  | zero => intro att el h; exact h
  | succ r ih =>
    intro att el h
    rw [attemptGo]
    simp only [Bool.false_eq_true, if_false]
    cases hp : dev.primary att with
      | ok => exact h
      | fail =>
        by_cases hr : r = 0
        · simp only [hr, if_pos rfl]
          exact .inr (.inl ⟨att, rfl⟩)
        · simp only [hr, if_false]
          exact ih (att + 1) _ (.inr (.inl ⟨att, rfl⟩))
      | exc m =>
        by_cases hr : r = 0
        · simp only [hr, if_pos rfl]
          exact .inr (.inr ⟨att, m, rfl⟩)
        · simp only [hr, if_false]
          exact ih (att + 1) _ (.inr (.inr ⟨att, m, rfl⟩))

lemma fallbackStep_of_succ (dev : Device) (coil : Int) (t : Bool) (o : WriteOut)
    (h : o.succ = true) : fallbackStep dev coil t o = o := by
  unfold fallbackStep; rw [h]; rfl

lemma fallbackStep_lastError_of_not_succ (dev : Device) (coil : Int) (t : Bool) (o : WriteOut)
    (h : (fallbackStep dev coil t o).succ = false) :
    (fallbackStep dev coil t o).lastError = o.lastError := by
  unfold fallbackStep at h ⊢
  by_cases ho : o.succ = true
  · rw [if_pos ho]
  · rw [if_neg ho] at h ⊢
    cases hf : dev.fallback <;> simp_all

lemma fallbackStep_trace_of_not_succ (dev : Device) (coil : Int) (t : Bool) (o : WriteOut)
    (h : o.succ = false) :
    (fallbackStep dev coil t o).trace =
      o.trace ++ (if dev.fallback = .noConnect then [] else [.dev (.fallbackCoil coil t)]) := by
  unfold fallbackStep
  rw [h]
  cases dev.fallback <;> simp

lemma fallbackStep_succ_iff (dev : Device) (coil : Int) (t : Bool) (o : WriteOut)
    (h : o.succ = false) :
    ((fallbackStep dev coil t o).succ = true ↔ dev.fallback = .writeOk) := by
  unfold fallbackStep
  rw [h]
  cases dev.fallback <;> simp

lemma readbackStep_coilCount (dev : Device) (tm : Bool) (d coil : Int) :
    coilCount (readbackStep dev tm d coil).trace = 0 := by
  unfold readbackStep
  by_cases htm : tm = true
  · simp [htm, coilCount]
  · simp only [htm, if_false]
    cases dev.readDo0 with
    | exc => simp [coilCount, List.filter, isFallbackEv]
    | val v =>
      cases v with
      | none => cases dev.readCoil <;> simp [coilCount, List.filter, isFallbackEv]
      | some x => simp [coilCount, List.filter, isFallbackEv]

lemma attemptGo_coilCount (dev : Device) (reg value : Int) :
    ∀ rem att el, coilCount (attemptGo dev false reg value rem att el).trace = 0 := by
  intro rem att el
  rw [coilCount, List.length_eq_zero, List.filter_eq_nil_iff]
  intro e he
  rcases attemptGo_trace_mem dev reg value rem att el e he with ⟨a, rfl⟩ | rfl <;> simp [isFallbackEv]

lemma coilCount_append (l1 l2 : List Event) :
    coilCount (l1 ++ l2) = coilCount l1 + coilCount l2 := by
  simp [coilCount, List.filter_append]

lemma exec_writeReg (w : World) : (executeCommand w).writeRegisterAddr = writeRegOf w := by
  unfold executeCommand runPhase
  split
  · rfl
  · split
    · rfl
    · split
      · rfl
      · split
        · split
          · split <;> rfl
          · rfl
        · rfl

/-! ### The specified properties -/

/-- C1: whenever the write phase reports success but the read-back state
differs from the resolved desired state, the command is finalised FAILED
with reason `readback_mismatch` and never SUCCESS. -/
theorem C1_readback_mismatch (w : World) (s d : Int)
    (hw : (executeCommand w).writeOk = some true)
    (hr : (executeCommand w).readBackState = some s)
    (hd : (executeCommand w).desiredInt = some d)
    (hne : s ≠ d) :
    (executeCommand w).result = .failed "readback_mismatch" ∧
    (executeCommand w).result ≠ .success := by
  unfold executeCommand at hw hr hd ⊢
  by_cases h1 : hostOf w = ""
  · rw [if_pos h1] at hw; cases hw
  · rw [if_neg h1] at hw hr hd ⊢
    cases h2 : resolveDesired (commandOf w) w.toggleQuery with
    | none => rw [h2] at hw; cases hw
    | some t =>
      rw [h2] at hw hr hd
      simp only [] at hw hr hd ⊢
      by_cases h3 : idemSkip w.idemQuery (desiredIntOf t) = true
      · rw [if_pos h3] at hw; cases hw
      · rw [if_neg h3] at hw hr hd ⊢
        unfold runPhase at hw hr hd ⊢
        by_cases h4 : (afterWriteOf w t).succ = true
        · rw [if_pos h4] at hw hr hd ⊢
          cases h5 : (readbackStep w.device (testModeOf w) (desiredIntOf t) (coilOf w)).state with
          | none =>
            rw [h5] at hr
            simp only [] at hr
            simp at hr
          | some s0 =>
            rw [h5] at hr hd
            simp only [] at hr hd ⊢
            by_cases h6 : s0 = desiredIntOf t
            · rw [if_pos h6] at hr hd
              exfalso
              apply hne
              simp only [ExecOutcome.readBackState] at hr
              simp only [ExecOutcome.desiredInt] at hd
              cases hr; cases hd; exact h6
            · rw [if_neg h6]
              exact ⟨rfl, by intro hx; cases hx⟩
        · rw [if_neg h4] at hw
          simp only [ExecOutcome.writeOk] at hw
          cases hw

/-- C1 witness: a concrete execution with a successful write and a 0
read-back against desired state 1 finishes FAILED `readback_mismatch`. -/
theorem C1_readback_mismatch_witness :
    (executeCommand c1world).result = .failed "readback_mismatch" ∧
    (executeCommand c1world).result ≠ .success :=
  C1_readback_mismatch c1world 0 1 (by decide) (by decide) (by decide) (by decide)

/-- C2: evaluating the register-command encoder at the claim's inputs:
`encode_do_value` puts the output id in the HIGH byte and the action in the
LOW byte, so `encode_do_value(0, 1)` is 1, not the 256 announced by the
specification and by the worker's own module docstring ("256 for ON, 0 for
OFF"); `encode_do_value(0, 0)` is 0 as stated. -/
theorem C2_encode_code_eval :
    encode_do_value 0 1 = 1 ∧ encode_do_value 0 0 = 0 ∧ encode_do_value 0 1 ≠ 256 := by
  decide

/-- C3: when the device is reachable, the command resolves to a desired
state, and the cached status row already equals that desired state, the
command is marked SUCCESS with an empty trace — no device I/O and no sleeps
at all. -/
theorem C3_idempotent_skip (w : World) (t : Bool) (st : Option Int)
    (hhost : hostOf w ≠ "")
    (hcmd : resolveDesired (commandOf w) w.toggleQuery = some t)
    (hq : w.idemQuery = .ok (some st))
    (heq : pyOrInt st 0 = desiredIntOf t) :
    (executeCommand w).result = .success ∧ (executeCommand w).trace = [] := by
  have hskip : idemSkip w.idemQuery (desiredIntOf t) = true := by
    rw [idemSkip.eq_def, hq]
    simp [heq]
  unfold executeCommand
  rw [if_neg hhost, hcmd]
  simp only []
  rw [if_pos hskip]
  exact ⟨rfl, rfl⟩

/-- C3 witness: an ON command whose cache row holds state 1 succeeds with an
empty device trace. -/
theorem C3_idempotent_skip_witness :
    (executeCommand c3world).result = .success ∧ (executeCommand c3world).trace = [] :=
  C3_idempotent_skip c3world true (some 1) (by decide) (by decide) (by decide) (by decide)

/-- C4: for a real (non test-mode) execution that reaches the write phase
with at least one allowed attempt: the primary register write is attempted
at most max-retries times; the loop trace consists only of primary writes
and fixed `RETRY_DELAY_SECONDS` sleeps, with exactly one fewer sleep than
writes; the loop ends unsuccessfully exactly when every allowed attempt
fails; exactly then one fallback coil write is attempted (none when some
primary attempt succeeded); and when the fallback also fails the command is
FAILED carrying the last captured attempt error. -/
theorem C4_retry_fallback (w : World) (t : Bool)
    (hhost : hostOf w ≠ "")
    (hcmd : resolveDesired (commandOf w) w.toggleQuery = some t)
    (hskip : idemSkip w.idemQuery (desiredIntOf t) = false)
    (htest : testModeOf w = false)
    (hmr : 1 ≤ (maxRetriesOf w).toNat) :
    primCount (loopOf w t).trace ≤ (maxRetriesOf w).toNat ∧
    (∀ e ∈ (loopOf w t).trace,
      (∃ a, e = .dev (.primaryWrite a (writeRegOf w) (encode_do_value 0 (desiredIntOf t)))) ∨
        e = .sleep RETRY_DELAY_SECONDS) ∧
    sleepCount (loopOf w t).trace + 1 = primCount (loopOf w t).trace ∧
    ((loopOf w t).succ = false ↔
      ∀ i, 1 ≤ i → i ≤ (maxRetriesOf w).toNat → w.device.primary i ≠ .ok) ∧
    ((loopOf w t).succ = true → coilCount (executeCommand w).trace = 0) ∧
    ((loopOf w t).succ = false → w.device.fallback ≠ .noConnect →
      coilCount (executeCommand w).trace = 1) ∧
    ((loopOf w t).succ = false → w.device.fallback ≠ .writeOk →
      (executeCommand w).result = .failed ((loopOf w t).lastError.getD "unknown_error") ∧
      (loopOf w t).lastError = some (primaryErrString w.device ((maxRetriesOf w).toNat))) := by
  have hexec : executeCommand w = runPhase w t := by
    unfold executeCommand
    rw [if_neg hhost, hcmd]
    simp only []
    rw [hskip]
    simp only [Bool.false_eq_true, if_false]
  have hl : loopOf w t =
      attemptGo w.device false (writeRegOf w) (encode_do_value 0 (desiredIntOf t))
        (maxRetriesOf w).toNat 1 none := by
    unfold loopOf attemptLoop
    rw [htest]
  have hcoil_exec : ∀ hsame : (afterWriteOf w t).succ = (afterWriteOf w t).succ,
      coilCount (executeCommand w).trace =
        coilCount (afterWriteOf w t).trace +
          (if (afterWriteOf w t).succ then
            coilCount (readbackStep w.device (testModeOf w) (desiredIntOf t) (coilOf w)).trace
          else 0) := by
    intro _
    rw [hexec]
    unfold runPhase
    by_cases h4 : (afterWriteOf w t).succ = true
    · rw [if_pos h4, h4]
      cases h5 : (readbackStep w.device (testModeOf w) (desiredIntOf t) (coilOf w)).state with
      | none => simp [coilCount_append]
      | some s0 =>
        simp only []
        by_cases h6 : s0 = desiredIntOf t
        · rw [if_pos h6]
          simp [coilCount_append]
        · rw [if_neg h6]
          simp [coilCount_append]
    · have h4f : (afterWriteOf w t).succ = false := by
        cases hx : (afterWriteOf w t).succ
        · rfl
        · exact absurd hx h4
      rw [if_neg h4, h4f]
      simp only [Bool.false_eq_true, if_false]
      omega
  refine ⟨?_, ?_, ?_, ?_, ?_, ?_, ?_⟩
  · rw [hl]; exact attemptGo_primCount _ _ _ _ 1 none
  · rw [hl]; exact attemptGo_trace_mem _ _ _ _ 1 none
  · rw [hl]; exact attemptGo_sleep_primCount _ _ _ _ 1 none (by omega)
  · rw [hl, attemptGo_succ_false_iff]
    constructor
    · intro h i h1 h2; exact h i h1 (by omega)
    · intro h i h1 h2; exact h i h1 (by omega)
  · intro hsucc
    have haw : afterWriteOf w t = loopOf w t := by
      unfold afterWriteOf
      exact fallbackStep_of_succ _ _ _ _ hsucc
    rw [hcoil_exec rfl, haw, hsucc]
    have h0 : coilCount (loopOf w t).trace = 0 := by
      rw [hl]; exact attemptGo_coilCount _ _ _ _ 1 none
    rw [h0, readbackStep_coilCount]
    simp
  · intro hsucc hnc
    have hawtr : (afterWriteOf w t).trace =
        (loopOf w t).trace ++ [.dev (.fallbackCoil (coilOf w) t)] := by
      unfold afterWriteOf
      rw [fallbackStep_trace_of_not_succ _ _ _ _ hsucc, if_neg hnc]
    have h0 : coilCount (loopOf w t).trace = 0 := by
      rw [hl]; exact attemptGo_coilCount _ _ _ _ 1 none
    rw [hcoil_exec rfl, hawtr, coilCount_append, h0, readbackStep_coilCount]
    simp [coilCount, List.filter, isFallbackEv]
  · intro hsucc hnok
    have h4f : (afterWriteOf w t).succ = false := by
      unfold afterWriteOf
      cases hx : (fallbackStep w.device (coilOf w) t (loopOf w t)).succ
      · rfl
      · exact absurd ((fallbackStep_succ_iff _ _ _ _ hsucc).mp hx) hnok
    have hle : (afterWriteOf w t).lastError = (loopOf w t).lastError := by
      unfold afterWriteOf
      exact fallbackStep_lastError_of_not_succ _ _ _ _ h4f
    constructor
    · rw [hexec]
      unfold runPhase
      rw [if_neg (by rw [h4f]; exact Bool.false_ne_true), hle]
    · have hallfail : ∀ i, 1 ≤ i → i < 1 + (maxRetriesOf w).toNat →
          w.device.primary i ≠ .ok := by
        have := (attemptGo_succ_false_iff w.device (writeRegOf w)
          (encode_do_value 0 (desiredIntOf t)) (maxRetriesOf w).toNat 1 none).mp
          (by rw [← hl]; exact hsucc)
        intro i h1 h2
        exact this i h1 h2
      rw [hl]
      have := attemptGo_lastError_allFail w.device (writeRegOf w)
        (encode_do_value 0 (desiredIntOf t)) (maxRetriesOf w).toNat 1 none (by omega) hallfail
      rw [this]
      congr 1
      congr 1
      omega

/-- C4 witness: with every primary attempt failing and the fallback coil
write failing, the concrete OFF command fails carrying
`attempt_failed:3` (the last of its 3 attempts). -/
theorem C4_retry_fallback_witness :
    primCount (loopOf c4world false).trace ≤ (maxRetriesOf c4world).toNat ∧
    ((loopOf c4world false).succ = false ↔
      ∀ i, 1 ≤ i → i ≤ (maxRetriesOf c4world).toNat → c4world.device.primary i ≠ .ok) ∧
    ((loopOf c4world false).succ = false → c4world.device.fallback ≠ .writeOk →
      (executeCommand c4world).result =
        .failed ((loopOf c4world false).lastError.getD "unknown_error") ∧
      (loopOf c4world false).lastError =
        some (primaryErrString c4world.device ((maxRetriesOf c4world).toNat))) := by
  obtain ⟨a, b, c, d, e, f, g⟩ :=
    C4_retry_fallback c4world false (by decide) (by decide) (by decide) (by decide) (by decide)
  exact ⟨a, d, g⟩

/-- C5 counterexample: an execution whose single write attempt raises an
exception fails with reason `attempt_error:1:boom`, which is not in the
specification's reason-code set. -/
theorem C5_reason_counterexample :
    (executeCommand c5world).result = .failed "attempt_error:1:boom" ∧
    specReasonListed "attempt_error:1:boom" = false := by decide

/-- C5 (amended): every FAILED result of `_execute_command` carries one of
the reasons `missing_analyzer_ip`, `unknown_command:<cmd>`,
`readback_mismatch`, `readback_missing`, `unknown_error`,
`attempt_failed:<n>`, or `attempt_error:<n>:<msg>`; `connect_failed` is
never produced (connect failures surface as `attempt_failed`). -/
theorem C5_reason_amended (w : World) (r : String)
    (h : (executeCommand w).result = .failed r) : ReasonForm r := by
  unfold executeCommand at h
  by_cases h1 : hostOf w = ""
  · rw [if_pos h1] at h
    simp only [] at h
    injection h with h2
    exact .inl h2.symm
  · rw [if_neg h1] at h
    cases h2 : resolveDesired (commandOf w) w.toggleQuery with
    | none =>
      rw [h2] at h
      simp only [] at h
      injection h with h3
      exact .inr (.inl ⟨commandOf w, h3.symm⟩)
    | some t =>
      rw [h2] at h
      simp only [] at h
      by_cases h3 : idemSkip w.idemQuery (desiredIntOf t) = true
      · rw [if_pos h3] at h
        simp only [] at h
        cases h
      · rw [if_neg h3] at h
        unfold runPhase at h
        by_cases h4 : (afterWriteOf w t).succ = true
        · rw [if_pos h4] at h
          cases h5 : (readbackStep w.device (testModeOf w) (desiredIntOf t) (coilOf w)).state with
          | none =>
            rw [h5] at h
            simp only [] at h
            injection h with h6
            exact .inr (.inr (.inr (.inl h6.symm)))
          | some s0 =>
            rw [h5] at h
            simp only [] at h
            by_cases h6 : s0 = desiredIntOf t
            · rw [if_pos h6] at h
              cases h
            · rw [if_neg h6] at h
              injection h with h7
              exact .inr (.inr (.inl h7.symm))
        · rw [if_neg h4] at h
          simp only [] at h
          injection h with h7
          have h4f : (fallbackStep w.device (coilOf w) t (loopOf w t)).succ = false := by
            have := h4
            unfold afterWriteOf at this
            cases hx : (fallbackStep w.device (coilOf w) t (loopOf w t)).succ
            · rfl
            · exact absurd hx this
          have hEF : ErrForm (afterWriteOf w t).lastError := by
            unfold afterWriteOf
            rw [fallbackStep_lastError_of_not_succ _ _ _ _ h4f]
            exact attemptGo_lastError_ErrForm _ _ _ _ _ _ _ (.inl rfl)
          rcases hEF with hnone | ⟨n, hn⟩ | ⟨n, m, hnm⟩
          · rw [hnone] at h7
            exact .inr (.inr (.inr (.inr (.inl h7.symm))))
          · rw [hn] at h7
            simp only [Option.getD] at h7
            exact .inr (.inr (.inr (.inr (.inr (.inl ⟨n, h7.symm⟩)))))
          · rw [hnm] at h7
            simp only [Option.getD] at h7
            exact .inr (.inr (.inr (.inr (.inr (.inr ⟨n, m, h7.symm⟩)))))

/-- C5 witness: the amended reason set covers the concrete
`attempt_error:1:boom` failure. -/
theorem C5_reason_amended_witness : ReasonForm "attempt_error:1:boom" :=
  C5_reason_amended c5world "attempt_error:1:boom" (by decide)

/-- C6: one enforcement cycle for an account whose usage equals its
allocation (ratio 100%) on a breaker-enabled device enqueues exactly one
OFF command; re-running while a PENDING duplicate is inside the suppression
window enqueues nothing; and once usage is strictly below the allocation an
ON command is enqueued for the same device and coil. -/
theorem C6_enforcement (uid aid coil : Int) (alloc : ℚ)
    (hc0 : 0 ≤ coil) (hc1 : coil ≤ 9999) (ha : 0 < alloc) :
    enforce (oneUserWorld uid aid coil alloc alloc (.ok false) (.ok false)) =
      [⟨aid, coil, "OFF", "auto_limit"⟩] ∧
    enforce (oneUserWorld uid aid coil alloc alloc (.ok true) (.ok false)) = [] ∧
    (∀ used : ℚ, used < alloc →
      enforce (oneUserWorld uid aid coil alloc used (.ok false) (.ok false)) =
        [⟨aid, coil, "ON", "auto_restore"⟩]) := by
  have halloc : pyOrRat (some alloc) 0 = alloc := by
    show (if alloc = 0 then (0 : ℚ) else alloc) = alloc
    rw [if_neg ha.ne']
  have hused : ∀ q : ℚ, pyOrRat (some q) 0 = q := by
    intro q
    show (if q = 0 then (0 : ℚ) else q) = q
    by_cases hq : q = 0
    · rw [if_pos hq, hq]
    · rw [if_neg hq]
  have hpct100 : usagePct alloc alloc = 100 := by
    unfold usagePct
    rw [if_pos ha, div_self ha.ne']
    norm_num
  have hcoil : ¬(coil < 0 ∨ coil > 9999) := by omega
  refine ⟨?_, ?_, ?_⟩
  · unfold enforce oneUserWorld
    simp only [List.map, List.flatten]
    unfold enforceUser
    simp only [List.map, List.flatten, halloc, hused, hpct100]
    unfold enforceAnalyzer
    rw [if_neg (by simp), if_neg hcoil, if_pos (by norm_num)]
    unfold enqueue_do should_enqueue
    simp
  · unfold enforce oneUserWorld
    simp only [List.map, List.flatten]
    unfold enforceUser
    simp only [List.map, List.flatten, halloc, hused, hpct100]
    unfold enforceAnalyzer
    rw [if_neg (by simp), if_neg hcoil, if_pos (by norm_num)]
    unfold enqueue_do should_enqueue
    simp
  · intro used hu
    have hpct : usagePct alloc used < 100 := by
      unfold usagePct
      rw [if_pos ha]
      have : used / alloc < 1 := (div_lt_one ha).mpr hu
      nlinarith
    unfold enforce oneUserWorld
    simp only [List.map, List.flatten]
    unfold enforceUser
    simp only [List.map, List.flatten, halloc, hused]
    unfold enforceAnalyzer
    rw [if_neg (by simp), if_neg hcoil, if_neg (by exact not_le.mpr hpct)]
    unfold enqueue_do should_enqueue
    simp

/-- C6 witness: the three enforcement scenarios at the specification's
concrete values used=100, allocated=100 (and then a smaller usage). -/
theorem C6_enforcement_witness :
    enforce (oneUserWorld 1 7 0 100 100 (.ok false) (.ok false)) =
      [⟨7, 0, "OFF", "auto_limit"⟩] ∧
    enforce (oneUserWorld 1 7 0 100 100 (.ok true) (.ok false)) = [] ∧
    (∀ used : ℚ, used < 100 →
      enforce (oneUserWorld 1 7 0 100 used (.ok false) (.ok false)) =
        [⟨7, 0, "ON", "auto_restore"⟩]) :=
  C6_enforcement 1 7 0 100 (by decide) (by decide) (by norm_num)

/-- C7: the 32-bit float decoder yields 0.0 for the all-zero register pair
(already under the first, highest-priority ordering), yields no value for
the all-ones sentinel, and any value it returns is within the plausibility
bound `abs(v) <= 1e9` and produced by one of the four byte/word-order
permutations of its fixed priority list. -/
theorem C7_decode_float :
    decode_float [0, 0] = some 0 ∧
    decodeOne ByteOrd.little ByteOrd.big 0 0 = some 0 ∧
    decode_float [0xFFFF, 0xFFFF] = none ∧
    ∀ (r0 r1 : Nat) (v : ℚ), decode_float [r0, r1] = some v →
      |v| ≤ 10 ^ 9 ∧ ∃ p ∈ decodeOrders, decodeOne p.1 p.2 r0 r1 = some v := by
  refine ⟨?_, ?_, by decide, ?_⟩
  · simp [decode_float, decodeOrders, List.findSome?, decodeOne, float32BytesBE, pack16,
      beBytesToNat, float32OfBits]
  · simp [decodeOne, float32BytesBE, pack16, beBytesToNat, float32OfBits]
  · intro r0 r1 v h
    unfold decode_float at h
    rw [if_neg (by simp)] at h
    by_cases hs : [r0, r1] = [0xFFFF, 0xFFFF]
    · rw [if_pos hs] at h; cases h
    · rw [if_neg hs] at h
      simp only [] at h
      obtain ⟨p, hp, hfp⟩ := List.exists_of_findSome?_eq_some h
      cases hq : decodeOne p.1 p.2 r0 r1 with
      | none => rw [hq] at hfp; cases hfp
      | some u =>
        rw [hq] at hfp
        simp only [] at hfp
        by_cases hb : |u| ≤ 10 ^ 9
        · rw [if_pos hb] at hfp
          injection hfp with hv
          exact ⟨hv ▸ hb, p, hp, hv ▸ hq⟩
        · rw [if_neg hb] at hfp; cases hfp

/-- C7 witness: the decoded 0.0 of the all-zero pair is within the bound and
is produced by one of the supported orderings. -/
theorem C7_decode_float_witness :
    |(0 : ℚ)| ≤ 10 ^ 9 ∧ ∃ p ∈ decodeOrders, decodeOne p.1 p.2 0 0 = some (0 : ℚ) :=
  C7_decode_float.2.2.2 0 0 0 C7_decode_float.1

/-- C8 counterexample: a localhost command with `MaxRetries = -1` (the API
accepts any integer) runs zero primary attempts, so the test-mode shortcut
never fires: the FC05 fallback performs real device I/O and the command
finishes FAILED `unknown_error` rather than SUCCESS. -/
theorem C8_testmode_counterexample :
    testModeOf c8world = true ∧
    (executeCommand c8world).result = .failed "unknown_error" ∧
    (executeCommand c8world).result ≠ .success ∧
    (executeCommand c8world).trace = [.dev (.fallbackCoil 0 true)] := by decide

/-- C8 (amended): for a test-mode execution (localhost host or UNIT_TEST=1)
with a present host, a valid command and a resolved max-retries of at least
one (as on every path that uses the default of 3), the engine performs no
device I/O at all and the command finishes SUCCESS: the first attempt is
treated as successful and the read-back is fabricated equal to the desired
state. -/
theorem C8_testmode_amended (w : World) (t : Bool)
    (htest : testModeOf w = true)
    (hhost : hostOf w ≠ "")
    (hcmd : resolveDesired (commandOf w) w.toggleQuery = some t)
    (hmr : 1 ≤ maxRetriesOf w) :
    (executeCommand w).result = .success ∧ (executeCommand w).trace = [] := by
  have hloop : loopOf w t = ⟨true, none, []⟩ := by
    unfold loopOf attemptLoop
    obtain ⟨k, hk⟩ : ∃ k, (maxRetriesOf w).toNat = k + 1 := ⟨(maxRetriesOf w).toNat - 1, by omega⟩
    rw [hk, attemptGo, htest]
    simp
  have haw : afterWriteOf w t = ⟨true, none, []⟩ := by
    unfold afterWriteOf
    rw [hloop]
    exact fallbackStep_of_succ _ _ _ _ rfl
  have hrb : readbackStep w.device (testModeOf w) (desiredIntOf t) (coilOf w) =
      ⟨some (desiredIntOf t), []⟩ := by
    unfold readbackStep
    rw [htest]
    simp
  by_cases hskip : idemSkip w.idemQuery (desiredIntOf t) = true
  · unfold executeCommand
    rw [if_neg hhost, hcmd]
    simp only []
    rw [if_pos hskip]
    exact ⟨rfl, rfl⟩
  · unfold executeCommand
    rw [if_neg hhost, hcmd]
    simp only []
    rw [if_neg hskip]
    unfold runPhase
    rw [haw, hrb]
    simp

/-- C8 witness: a localhost ON command with the default max-retries
succeeds with an empty device trace although its device oracle would fail
every call. -/
theorem C8_testmode_amended_witness :
    (executeCommand c8okworld).result = .success ∧ (executeCommand c8okworld).trace = [] :=
  C8_testmode_amended c8okworld true (by decide) (by decide) (by decide) (by decide)

/-- C9: duplicate suppression fails open — when the duplicate query raises,
`_should_enqueue` answers true and (the stored procedure succeeding) the
enforcement enqueue is performed. -/
theorem C9_fail_open (w : EnforceWorld) (analyzerId coil : Int) (command source : String)
    (herr : w.dupPending analyzerId coil command DUPLICATE_WINDOW_SECONDS = .err) :
    should_enqueue w analyzerId coil command = true ∧
    (w.spOk analyzerId coil command = true →
      enqueue_do w analyzerId coil command source = [⟨analyzerId, coil, command, source⟩]) := by
  have hs : should_enqueue w analyzerId coil command = true := by
    unfold should_enqueue
    rw [herr]
  refine ⟨hs, fun hsp => ?_⟩
  unfold enqueue_do
  rw [hs, hsp]
  simp

/-- C9 witness: a concrete enforcement world whose duplicate query always
raises still performs the OFF enqueue. -/
theorem C9_fail_open_witness :
    should_enqueue c9world 3 0 "OFF" = true ∧
    (c9world.spOk 3 0 "OFF" = true →
      enqueue_do c9world 3 0 "OFF" "auto_limit" = [⟨3, 0, "OFF", "auto_limit"⟩]) :=
  C9_fail_open c9world 3 0 "OFF" "auto_limit" rfl

/-- C10: when the first `reg=` token of the notes does not carry a valid
integer, the notes parser returns no override — the error is swallowed —
and the command's resolved write register is the default 60008. -/
theorem C10_notes_invalid_reg (w : World) (raw : List Char)
    (hfind : findRegRaw (splitSemi (notesOf w).toList) = some raw)
    (hint : pyIntChars raw = none) :
    parse_notes_for_reg (notesOf w) = none ∧
    (executeCommand w).writeRegisterAddr = DEFAULT_WRITE_REGISTER := by
  have hparse : parse_notes_for_reg (notesOf w) = none := by
    unfold parse_notes_for_reg
    by_cases he : notesOf w = ""
    · rw [if_pos he]
    · rw [if_neg he, hfind]
      simp only []
      exact hint
  refine ⟨hparse, ?_⟩
  rw [exec_writeReg w]
  unfold writeRegOf
  rw [hparse]
  rfl

/-- C10 witness: notes `reg=abc` produce no override and the command runs
against register 60008. -/
theorem C10_notes_invalid_reg_witness :
    parse_notes_for_reg (notesOf c10world) = none ∧
    (executeCommand c10world).writeRegisterAddr = DEFAULT_WRITE_REGISTER :=
  C10_notes_invalid_reg c10world "abc".toList (by decide) (by decide)

end EMS
